import Mathlib

/-!
Verification development for the EnhancedExec package (src/Commands.py).

The development shallowly embeds the process-launch core of Commands.py:

- the environment composition performed by the updated_environ context
  manager together with lines 67 to 72 of EnhancedAsyncProcess.__init__,
  including the os.path.expandvars expansion (POSIX variant);
- the command validation and results-file placeholder substitution phase
  of EnhancedAsyncProcess.__init__ (lines 48 to 133);
- the results tailer EnhancedAsyncProcess.read_results_from_file;
- the cleanup loop EnhancedAsyncProcess.delete_results_file;
- EnhancedAsyncProcess.create_results_file and EnhancedAsyncProcess.kill.

Python dictionaries of environment variables are modelled as functions
from String to Option String.  Byte chunks read from the results file are
modelled as lists of naturals.  Side effects (listener callbacks, removal
attempts, sleeps, warnings, process termination requests) are modelled as
explicit event traces.  Scanning loops over strings are written with a
fuel argument equal to the length of the scanned list; every step of the
corresponding Python loop consumes at least one character, so the fuel
never runs out and the encoding is exact.
-/

/-- Environment maps: a Python dict of environment variables, viewed as a
function from keys to optional values. -/
abbrev EnvMap := String → Option String

/-- Membership in the ASCII word class used by the expandvars regex. -/
def isWordChar (c : Char) : Bool := c.isAlphanum || c = '_'

/-- Character-level model of posixpath.expandvars: scan for a dollar sign
followed by either a word or a braced name, look the name up in environ,
substitute when present and leave the reference in place when absent, and
never rescan substituted values.  The fuel argument starts at the length
of the list; every equation consumes at least one character, so the zero
case is unreachable from expandvars below. -/
def expandCharsF (environ : EnvMap) : Nat → List Char → List Char
  | 0, l => l
  | _ + 1, [] => []
  | fuel + 1, '$' :: rest =>
    match rest with
    | '{' :: r2 =>
      let name := r2.takeWhile (fun c => c != '}')
      let after := r2.drop name.length
      if after.isEmpty then
        '$' :: expandCharsF environ fuel rest
      else
        let tail := after.tail
        match environ (String.mk name) with
        | some v => v.data ++ expandCharsF environ fuel tail
        | Option.none => '$' :: '{' :: (name ++ '}' :: expandCharsF environ fuel tail)
    | _ =>
      let name := rest.takeWhile isWordChar
      if name.isEmpty then
        '$' :: expandCharsF environ fuel rest
      else
        let tail := rest.drop name.length
        match environ (String.mk name) with
        | some v => v.data ++ expandCharsF environ fuel tail
        | Option.none => '$' :: (name ++ expandCharsF environ fuel tail)
  | fuel + 1, c :: rest => c :: expandCharsF environ fuel rest

/-- Model of os.path.expandvars applied to a string, with environ as the
reference map. -/
def expandvars (environ : EnvMap) (s : String) : String :=
  String.mk (expandCharsF environ s.data.length s.data)

/-- Model of dict.update: every key of the overlay wins over the base. -/
def EnvMap.update (base overlay : EnvMap) : EnvMap :=
  fun k =>
    match overlay k with
    | some v => some v
    | Option.none => base k

/-- Model of a single dict item assignment. -/
def EnvMap.set (m : EnvMap) (key v : String) : EnvMap :=
  fun k => if k = key then some v else m k

/-- Model of the updated_environ context manager (Commands.py lines 22 to
29): given the process-wide environment and the env argument, the first
component is the value os.environ holds inside the with block (base
updated with env) and the second is the value restored on exit. -/
def updated_environ (globalEnv env : EnvMap) : EnvMap × EnvMap :=
  (EnvMap.update globalEnv env, globalEnv)

/-- Model of the environment composition in EnhancedAsyncProcess.__init__
(lines 67 to 72): inside updated_environ, proc_env is a copy of the
mutated os.environ; if path is truthy it replaces the PATH entry; every
value is then expanded with os.path.expandvars, whose reference map is
the mutated os.environ (base updated with env, without the PATH
replacement).  The first component is the composed child environment; the
second is the trace of values the process-wide os.environ takes over
time: before the block, inside the block, and after the restore. -/
def composeProcEnv (base env : EnvMap) (path : String) : EnvMap × List EnvMap :=
  let inside := (updated_environ base env).1
  let restored := (updated_environ base env).2
  let proc_env0 := inside
  let proc_env1 := if path ≠ "" then EnvMap.set proc_env0 "PATH" path else proc_env0
  let proc_env2 := fun k => (proc_env1 k).map (fun v => expandvars inside v)
  (proc_env2, [base, inside, restored])

/-- Characters of the results-file placeholder token. -/
def tokenChars : List Char := "<result_file>".data

/-- Placeholder token recognized in commands (Commands.py literal). -/
def token : String := String.mk tokenChars

/-- Boolean list-prefix test used by the substring scanner. -/
def isPrefixChars : List Char → List Char → Bool
  | [], _ => true
  | _ :: _, [] => false
  | a :: as, b :: bs => a = b && isPrefixChars as bs

/-- Model of the Python substring membership test tok in s, specialized
to the placeholder token. -/
def containsChars : List Char → Bool
  | [] => false
  | c :: rest => isPrefixChars tokenChars (c :: rest) || containsChars rest

/-- Leftmost non-overlapping split on the placeholder token, the list
analogue of str.split.  Fuel equal to the list length suffices because
every equation consumes at least one character. -/
def splitTokF : Nat → List Char → List (List Char)
  | 0, l => [l]
  | _ + 1, [] => [[]]
  | fuel + 1, c :: rest =>
    if isPrefixChars tokenChars (c :: rest) then
      [] :: splitTokF fuel ((c :: rest).drop tokenChars.length)
    else
      match splitTokF fuel rest with
      | part :: parts => (c :: part) :: parts
      | [] => [[c]]

/-- Interleaving join, the list analogue of str.join. -/
def joinSep (sep : List Char) : List (List Char) → List Char
  | [] => []
  | [x] => x
  | x :: xs => x ++ sep ++ joinSep sep xs

/-- Model of the membership test for the placeholder token in a string. -/
def containsTok (s : String) : Bool := containsChars s.data

/-- Model of s.replace(token, repl): for a non-empty pattern, str.replace
coincides with joining the leftmost non-overlapping split on the
replacement string. -/
def pyReplace (s repl : String) : String :=
  String.mk (joinSep repl.data (splitTokF s.data.length s.data))

/-- The cmd argument of EnhancedAsyncProcess.__init__ as it is actually
passed by build systems: absent, a single string, or a list of argument
strings. -/
inductive Cmd where
  | none
  | str (s : String)
  | list (xs : List String)
deriving Repr, DecidableEq

/-- Python truthiness of a cmd value: None, the empty string and the
empty list are falsy. -/
def Cmd.truthy : Cmd → Bool
  | .none => false
  | .str s => s ≠ ""
  | .list xs => !xs.isEmpty

/-- Python truthiness of an optional string: None and the empty string
are falsy. -/
def truthyOpt : Option String → Bool
  | Option.none => false
  | some s => s ≠ ""

/-- Exceptions raised by the modelled constructor code. -/
inductive PyErr where
  | typeError
  | valueError (msg : String)
deriving Repr, DecidableEq

/-- Mutable attributes of an EnhancedAsyncProcess instance that the
modelled methods read and write: killed, results_file_path, the
_delete_results_file ownership flag, and whether self.listener is set. -/
structure ProcState where
  killed : Bool
  results_file_path : Option String
  delete_flag : Bool
  hasListener : Bool
deriving Repr, DecidableEq

/-- Model of EnhancedAsyncProcess.create_results_file: record the name of
the freshly created temporary file and set the ownership flag. -/
def create_results_file (s : ProcState) (tempName : String) : ProcState :=
  { s with results_file_path := some tempName, delete_flag := true }

/-- Result of a successful run of the constructor up to thread start:
the instance state, the shell command string actually passed to Popen
(present exactly when the shell branch spawned), the cmd value actually
passed to Popen in the non-shell branch, whether a temporary results file
was created, and whether the results tailer thread is started. -/
structure Launch where
  st : ProcState
  finalShellCmd : Option String
  finalCmd : Cmd
  createdTemp : Bool
  tailerStarted : Bool
deriving Repr, DecidableEq

/-- Model of EnhancedAsyncProcess.__init__ (Commands.py lines 48 to 133)
up to and including thread start, with spawning abstracted to recording
the spawned command.  The tempName argument stands for the unique name
tempfile.NamedTemporaryFile would produce.  Faithful details: the guard
raises ValueError when both cmd and shell_cmd are falsy; in the shell
branch str.replace substitutes every occurrence of the token; in the
string-cmd branch the membership test runs on shell_cmd (None raises
TypeError, the empty string never contains the token); in the list-cmd
branch the return value of a.replace is discarded, so the list passed to
Popen is the original one; the tailer thread starts whenever
results_file_path is truthy. -/
def init (cmd : Cmd) (shell_cmd : Option String) (results_file_path : Option String)
    (tempName : String) : Except PyErr Launch :=
  if !truthyOpt shell_cmd && !cmd.truthy then
    Except.error (PyErr.valueError "shell_cmd or cmd is required")
  else
    let st0 : ProcState :=
      { killed := false, results_file_path := results_file_path,
        delete_flag := false, hasListener := true }
    if truthyOpt shell_cmd then
      match shell_cmd with
      | some sc =>
        if containsTok sc then
          let st1 := if !truthyOpt st0.results_file_path then
              create_results_file st0 tempName else st0
          let sc2 := pyReplace sc (st1.results_file_path.getD "")
          Except.ok { st := st1, finalShellCmd := some sc2, finalCmd := cmd,
                      createdTemp := st1.delete_flag,
                      tailerStarted := truthyOpt st1.results_file_path }
        else
          Except.ok { st := st0, finalShellCmd := some sc, finalCmd := cmd,
                      createdTemp := false,
                      tailerStarted := truthyOpt st0.results_file_path }
      | Option.none =>
        -- unreachable: a truthy optional string is some non-empty string
        Except.error PyErr.typeError
    else
      match cmd with
      | Cmd.str s =>
        -- line 106 tests the token against shell_cmd, not against cmd
        match shell_cmd with
        | Option.none => Except.error PyErr.typeError
        | some scv =>
          if containsTok scv then
            let st1 := if !truthyOpt st0.results_file_path then
                create_results_file st0 tempName else st0
            let s2 := pyReplace s (st1.results_file_path.getD "")
            Except.ok { st := st1, finalShellCmd := Option.none,
                        finalCmd := Cmd.str s2, createdTemp := st1.delete_flag,
                        tailerStarted := truthyOpt st1.results_file_path }
          else
            Except.ok { st := st0, finalShellCmd := Option.none,
                        finalCmd := Cmd.str s, createdTemp := false,
                        tailerStarted := truthyOpt st0.results_file_path }
      | Cmd.list xs =>
        -- for each argument containing the token the file is created if
        -- needed, but the result of a.replace is discarded and the
        -- original argument is appended to updated_cmd
        let st1 := xs.foldl
          (fun (acc : ProcState) a =>
            if containsTok a then
              (if !truthyOpt acc.results_file_path then
                create_results_file acc tempName else acc)
            else acc) st0
        Except.ok { st := st1, finalShellCmd := Option.none,
                    finalCmd := Cmd.list xs, createdTemp := st1.delete_flag,
                    tailerStarted := truthyOpt st1.results_file_path }
      | Cmd.none =>
        -- unreachable behind the guard: iterating None raises TypeError
        Except.error PyErr.typeError

/-- Observable actions of the modelled methods: a chunk forwarded to
listener.on_data, a listener.on_finished call, an os.remove attempt on a
path, a time.sleep measured in hundredths of a second, the warning logged
when the delete loop gives up, and an OS-level termination request. -/
inductive Event where
  | onData (chunk : List Nat)
  | onFinished
  | removeAttempt (path : Option String)
  | sleep (centis : Nat)
  | warn
  | terminate
deriving Repr, DecidableEq

/-- Model of the retry loop in delete_results_file.  The counter of the
Python loop advances in exact steps of one tenth from zero while it stays
at most five, so the loop body runs for counter values 0.0, 0.1, ..., 5.0:
51 iterations at most, which the fuel argument encodes (the source adds
0.1 to a float, whose accumulated rounding this exact model ignores).
The oracle removeFails tells whether the n-th os.remove attempt raises
PermissionError.  Returns whether the file was removed, together with the
trace of attempts and sleeps. -/
def deleteLoop (removeFails : Nat → Bool) (path : Option String) :
    Nat → Nat → Bool × List Event
  | _, 0 => (false, [])
  | attempt, fuel + 1 =>
    if removeFails attempt then
      let rec2 := deleteLoop removeFails path (attempt + 1) fuel
      (rec2.1, Event.removeAttempt path :: Event.sleep 10 :: rec2.2)
    else
      (true, [Event.removeAttempt path])

/-- Model of EnhancedAsyncProcess.delete_results_file (lines 173 to 198):
when the ownership flag is set, run the bounded retry loop and log a
warning when it exhausts its budget; in every case reset
results_file_path to None and clear the ownership flag.  The method
returns normally in all modelled cases: the warning is an event, never an
exception. -/
def delete_results_file (s : ProcState) (removeFails : Nat → Bool) :
    ProcState × List Event :=
  let evs :=
    if s.delete_flag then
      let r := deleteLoop removeFails s.results_file_path 0 51
      r.2 ++ (if r.1 then [] else [Event.warn])
    else []
  ({ s with results_file_path := Option.none, delete_flag := false }, evs)

/-- Model of the read loop in read_results_from_file (lines 142 to 152)
for a fixed value of the killed flag and of the liveness probe during the
window considered.  The reads list holds the successive results of
f.read; once it is exhausted every further read returns the empty chunk.
A non-empty chunk is forwarded to the listener (when one is set) without
any check of the killed flag; the killed flag and the liveness probe are
consulted only when a read comes back empty.  Returns none when the loop
never reaches its break (the process stays alive and unkilled). -/
def tailLoop (killed alive hasListener : Bool) : List (List Nat) → Option (List Event)
  | [] => if killed || !alive then some [] else Option.none
  | c :: rest =>
    if c.length > 0 then
      (tailLoop killed alive hasListener rest).map
        (fun evs => (if hasListener then [Event.onData c] else []) ++ Event.sleep 1 :: evs)
    else
      if killed || !alive then some []
      else (tailLoop killed alive hasListener rest).map (fun evs => Event.sleep 1 :: evs)

/-- Model of EnhancedAsyncProcess.read_results_from_file (lines 135 to
155): run the read loop, then call delete_results_file.  Returns none
when the results file path is absent (the thread is only started when the
path is truthy) or when the read loop never terminates. -/
def read_results_from_file (s : ProcState) (alive : Bool) (reads : List (List Nat))
    (removeFails : Nat → Bool) : Option (ProcState × List Event) :=
  match s.results_file_path with
  | Option.none => Option.none
  | some _ =>
    (tailLoop s.killed alive s.hasListener reads).map
      (fun evs =>
        let r := delete_results_file s removeFails
        (r.1, evs ++ r.2))

/-- Modelled from the spec: the kill method of the host-provided base
class AsyncProcess, which src/Commands.py imports from the Default
package and does not contain.  Per the spec it is idempotent, sets the
shared killed flag and requests OS-level termination of the process. -/
def base_kill (s : ProcState) : ProcState × List Event :=
  if s.killed then (s, [])
  else ({ s with killed := true }, [Event.terminate])

/-- Model of EnhancedAsyncProcess.kill (lines 157 to 159): call the base
class kill, then delete_results_file. -/
def kill (s : ProcState) (removeFails : Nat → Bool) : ProcState × List Event :=
  let r1 := base_kill s
  let r2 := delete_results_file r1.1 removeFails
  (r2.1, r1.2 ++ r2.2)

/-- Chunks forwarded to the listener within an event trace. -/
def dataOps (evs : List Event) : List Event :=
  evs.filter (fun e => match e with | Event.onData _ => true | _ => false)

/-- Removal attempts within an event trace. -/
def removeOps (evs : List Event) : List Event :=
  evs.filter (fun e => match e with | Event.removeAttempt _ => true | _ => false)

/-- Warnings within an event trace. -/
def warnOps (evs : List Event) : List Event :=
  evs.filter (fun e => match e with | Event.warn => true | _ => false)

/-- Sleeps within an event trace. -/
def sleepOps (evs : List Event) : List Event :=
  evs.filter (fun e => match e with | Event.sleep _ => true | _ => false)

/-- Listener completion calls within an event trace. -/
def finishedOps (evs : List Event) : List Event :=
  evs.filter (fun e => match e with | Event.onFinished => true | _ => false)

/-- Removal attempts of a possibly undefined tailer run: the empty list
when the run is undefined. -/
def removeOpsOf (r : Option (ProcState × List Event)) : List Event :=
  match r with
  | some x => removeOps x.2
  | Option.none => []

/-- Small concrete base environment used by concrete instances. -/
def baseEnvEx : EnvMap := fun k => if k = "PATH" then some "/usr/bin" else Option.none

/-- Small concrete overlay used by concrete instances. -/
def overlayEx : EnvMap := fun k => if k = "FOO" then some "bar" else Option.none

/-! Helper lemmas about the delete retry loop and the tailer loop. -/

/-- Events of the delete retry loop are removal attempts and sleeps only:
any filter rejecting both selects nothing from its trace. -/
theorem aux_deleteLoop_filter_nil (rf : Nat → Bool) (path : Option String)
    (q : Event → Bool) (hr : ∀ p, q (Event.removeAttempt p) = false)
    (hs : ∀ n, q (Event.sleep n) = false) :
    ∀ (fuel attempt : Nat), ((deleteLoop rf path attempt fuel).2).filter q = []
  | 0, _ => by simp [deleteLoop]
  | fuel + 1, attempt => by
    cases h : rf attempt with
    | true =>
      simp [deleteLoop, h, hr, hs,
        aux_deleteLoop_filter_nil rf path q hr hs fuel (attempt + 1)]
    | false => simp [deleteLoop, h, hr]

/-- The delete retry loop makes at most fuel removal attempts. -/
theorem aux_deleteLoop_remove_len (rf : Nat → Bool) (path : Option String) :
    ∀ (fuel attempt : Nat),
      (removeOps (deleteLoop rf path attempt fuel).2).length ≤ fuel
  | 0, _ => by simp [deleteLoop, removeOps]
  | fuel + 1, attempt => by
    cases h : rf attempt with
    | true =>
      have ih := aux_deleteLoop_remove_len rf path fuel (attempt + 1)
      simp [deleteLoop, h, removeOps] at ih ⊢
      omega
    | false => simp [deleteLoop, h, removeOps]

/-- The delete retry loop sleeps at most fuel times. -/
theorem aux_deleteLoop_sleep_len (rf : Nat → Bool) (path : Option String) :
    ∀ (fuel attempt : Nat),
      (sleepOps (deleteLoop rf path attempt fuel).2).length ≤ fuel
  | 0, _ => by simp [deleteLoop, sleepOps]
  | fuel + 1, attempt => by
    cases h : rf attempt with
    | true =>
      have ih := aux_deleteLoop_sleep_len rf path fuel (attempt + 1)
      simp [deleteLoop, h, sleepOps] at ih ⊢
      omega
    | false => simp [deleteLoop, h, sleepOps]

/-- The delete retry loop succeeds exactly when one of its fuel attempts
does not fail. -/
theorem aux_deleteLoop_ok (rf : Nat → Bool) (path : Option String) :
    ∀ (fuel attempt : Nat),
      (deleteLoop rf path attempt fuel).1 =
        !((List.range fuel).all (fun i => rf (attempt + i)))
  | 0, _ => by simp [deleteLoop]
  | fuel + 1, attempt => by
    rw [List.range_succ_eq_map]
    cases h : rf attempt with
    | true =>
      have ih := aux_deleteLoop_ok rf path fuel (attempt + 1)
      simp only [deleteLoop, h, if_true, ih, List.all_cons, List.all_map]
      have harg : (fun i => rf (attempt + i)) ∘ Nat.succ =
          fun i => rf (attempt + 1 + i) := by
        funext i
        have : attempt + Nat.succ i = attempt + 1 + i := by omega
        simp [Function.comp, this]
      rw [harg]
      simp [h]
    | false => simp [deleteLoop, h]

/-- Events of the tailer read loop are listener chunks and sleeps only:
any filter rejecting both selects nothing from its trace. -/
theorem aux_tailLoop_filter_nil (k a hl : Bool) (q : Event → Bool)
    (hc : ∀ c, q (Event.onData c) = false) (hs : ∀ n, q (Event.sleep n) = false) :
    ∀ (reads : List (List Nat)) (evs : List Event),
      tailLoop k a hl reads = some evs → evs.filter q = []
  | [], evs => by
    simp only [tailLoop]
    split
    · intro h
      cases h
      simp
    · intro h
      cases h
  | c :: rest, evs => by
    simp only [tailLoop]
    split
    · intro h
      rw [Option.map_eq_some'] at h
      obtain ⟨evs0, h0, rfl⟩ := h
      have ih := aux_tailLoop_filter_nil k a hl q hc hs rest evs0 h0
      cases hl <;> simp [hc, hs, ih]
    · split
      · intro h
        cases h
        simp
      · intro h
        rw [Option.map_eq_some'] at h
        obtain ⟨evs0, h0, rfl⟩ := h
        have ih := aux_tailLoop_filter_nil k a hl q hc hs rest evs0 h0
        simp [hs, ih]

/-- With the liveness probe reporting not alive, the tailer read loop
always reaches its break. -/
theorem aux_tailLoop_some (k hl : Bool) :
    ∀ (reads : List (List Nat)), (tailLoop k false hl reads).isSome = true
  | [] => by simp [tailLoop]
  | c :: rest => by
    have ih := aux_tailLoop_some k hl rest
    simp only [tailLoop]
    split
    · simpa using ih
    · simp

/-- C1: the claim states that environment composition never mutates the
process-wide environment, even transiently.  The code does: inside the
updated_environ context manager the process-wide os.environ is set to the
base environment updated with the overlay, and only restored afterwards.
At the concrete failing input (base containing only PATH, overlay setting
FOO) the middle entry of the global-environment trace holds FOO, which
the base environment does not: the mutation is observable by a concurrent
launch while composition runs. -/
theorem c1_transient_global_mutation :
    ((composeProcEnv baseEnvEx overlayEx "").2.getD 1 baseEnvEx) "FOO" = some "bar" ∧
    baseEnvEx "FOO" = Option.none ∧
    (composeProcEnv baseEnvEx overlayEx "").2.length = 3 := by
  refine ⟨rfl, rfl, rfl⟩

/-- C2 counterexample: the claim states that after the kill flag is set a
subsequent non-empty read is not forwarded.  With the kill flag already
set, a listener present and a single non-empty read of byte 42, the
results tailer still forwards the chunk to the listener: the killed flag
is consulted only on empty reads. -/
theorem c2_counterexample :
    (read_results_from_file
        { killed := true, results_file_path := some "/tmp/r.txt",
          delete_flag := false, hasListener := true }
        true [[42]] (fun _ => false)).map (fun x => dataOps x.2) =
      some [Event.onData [42]] ∧
    ¬ ((read_results_from_file
        { killed := true, results_file_path := some "/tmp/r.txt",
          delete_flag := false, hasListener := true }
        true [[42]] (fun _ => false)).map (fun x => dataOps x.2) =
      some []) := by
  exact ⟨rfl, by decide⟩

/-- C2 amended: once the kill flag is set the results tailer still
forwards every non-empty read it encounters, one listener call per
chunk, and terminates at its first empty read: reads after that empty
read contribute nothing.  Immediate suppression of forwards upon kill is
not provided by the flag. -/
theorem c2_tailer_after_kill (alive : Bool) (pre rest : List (List Nat))
    (h : pre.all (fun c => !c.isEmpty) = true) :
    tailLoop true alive true (pre ++ [] :: rest) = tailLoop true alive true pre ∧
    (tailLoop true alive true pre).map (fun evs => (dataOps evs).length) =
      some pre.length := by
  induction pre with
  | nil =>
    constructor
    · simp [tailLoop]
    · simp [tailLoop, dataOps]
  | cons c pre ih =>
    rw [List.all_cons] at h
    have hc : c.isEmpty = false := by
      cases hce : c.isEmpty <;> simp [hce] at h ⊢
    have hlen : 0 < c.length := by
      cases c with
      | nil => simp at hc
      | cons x xs => simp
    have hall : pre.all (fun c => !c.isEmpty) = true := by
      cases hap : pre.all (fun c => !c.isEmpty) <;> simp [hap, hc] at h ⊢
    obtain ⟨ih1, ih2⟩ := ih hall
    constructor
    · simp only [List.cons_append, tailLoop, hlen, if_pos]
      exact congrArg _ ih1
    · rw [Option.map_eq_some'] at ih2
      obtain ⟨evs0, h0, hlen0⟩ := ih2
      simp only [tailLoop, h0]
      simp only [dataOps] at hlen0
      simp [hlen, dataOps, hlen0]

/-- C3: the claim states that placeholder substitution is complete on
both command forms.  It holds for a shell command string, where every
occurrence is replaced with the resolved path, but fails for an argv
list: the constructor discards the return value of a.replace, so the
list handed to Popen keeps the raw token even though the temporary
results file is created and the tailer is started.  Concretely, the argv
form with one token-bearing argument spawns the unchanged argv, while
the shell form with two token occurrences substitutes both. -/
theorem c3_argv_substitution_dropped :
    init (Cmd.list ["tool", "--out=<result_file>"]) Option.none Option.none
        "/tmp/res.txt" =
      Except.ok { st := { killed := false, results_file_path := some "/tmp/res.txt",
                          delete_flag := true, hasListener := true },
                  finalShellCmd := Option.none,
                  finalCmd := Cmd.list ["tool", "--out=<result_file>"],
                  createdTemp := true, tailerStarted := true } ∧
    init Cmd.none (some "run <result_file> and <result_file>") Option.none
        "/tmp/q.txt" =
      Except.ok { st := { killed := false, results_file_path := some "/tmp/q.txt",
                          delete_flag := true, hasListener := true },
                  finalShellCmd := some "run /tmp/q.txt and /tmp/q.txt",
                  finalCmd := Cmd.none,
                  createdTemp := true, tailerStarted := true } := by
  exact ⟨rfl, rfl⟩

/-- C10: with cmd a string and shell_cmd None, the constructor raises
TypeError at the placeholder membership test before any process is
spawned (the model returns the error before producing a Launch); and
with shell_cmd the empty string, a token inside the string cmd is never
substituted, no temporary file is created and no tailer starts. -/
theorem c10_constructor_edge_cases :
    init (Cmd.str "ls") Option.none Option.none "T" =
      Except.error PyErr.typeError ∧
    init (Cmd.str "echo <result_file>") (some "") Option.none "T" =
      Except.ok { st := { killed := false, results_file_path := Option.none,
                          delete_flag := false, hasListener := true },
                  finalShellCmd := Option.none,
                  finalCmd := Cmd.str "echo <result_file>",
                  createdTemp := false, tailerStarted := false } := by
  exact ⟨rfl, rfl⟩

/-- C2 witness: the amended tailer statement at the concrete run with two
non-empty reads before the empty read and one read after it. -/
theorem c2_tailer_after_kill_witness :
    ([[1], [2]] : List (List Nat)).all (fun c => !c.isEmpty) = true ∧
    (tailLoop true true true ([[1], [2]] ++ [] :: [[3]]) =
        tailLoop true true true [[1], [2]] ∧
      (tailLoop true true true [[1], [2]]).map (fun evs => (dataOps evs).length) =
        some ([[1], [2]] : List (List Nat)).length) :=
  ⟨by decide, c2_tailer_after_kill true [[1], [2]] [[3]] (by decide)⟩

/-- C4 counterexample: the claim states that a spec with both argv and
shellCommand populated is rejected with a ConstructionError.  The code
accepts it: with cmd a non-empty list and shell_cmd a non-empty string,
the constructor succeeds, does not raise the ValueError of the guard, and
spawns through the shell branch with shell_cmd taking precedence. -/
theorem c4_counterexample :
    (init (Cmd.list ["ls"]) (some "echo hi") Option.none "T").isOk = true ∧
    (init (Cmd.list ["ls"]) (some "echo hi") Option.none "T").map
        (fun l => l.finalShellCmd) = Except.ok (some "echo hi") := by
  exact ⟨rfl, rfl⟩

/-- C4 amended: the constructor raises the guard ValueError exactly when
both cmd and shell_cmd are falsy (neither-set); when shell_cmd is a
non-empty string the launch is accepted whatever cmd holds, including the
both-set case, and the spawn goes through the shell branch (shellCommand
takes precedence over argv).  A string cmd without shell_cmd raises
TypeError rather than the guard error. -/
theorem c4_validation (cmd : Cmd) (sc rfp : Option String) (t : String)
    (xs : List String) (sc2 : String) (h2 : sc2 ≠ "") :
    (init cmd sc rfp t =
        Except.error (PyErr.valueError "shell_cmd or cmd is required") ↔
      (truthyOpt sc = false ∧ cmd.truthy = false)) ∧
    (init (Cmd.list xs) (some sc2) rfp t).map
        (fun l => l.finalShellCmd.isSome) = Except.ok true := by
  have hct0 : containsTok "" = false := by decide
  constructor
  · cases cmd with
    | none =>
      cases sc with
      | none => simp [init, truthyOpt, Cmd.truthy]
      | some v =>
        by_cases hv : v = ""
        · simp [init, truthyOpt, Cmd.truthy, hv]
        · cases hc : containsTok v <;>
            simp [init, truthyOpt, Cmd.truthy, hv, hc]
    | str s =>
      cases sc with
      | none =>
        by_cases hs : s = "" <;> simp [init, truthyOpt, Cmd.truthy, hs]
      | some v =>
        by_cases hv : v = ""
        · by_cases hs : s = "" <;>
            simp [init, truthyOpt, Cmd.truthy, hv, hs, hct0]
        · cases hc : containsTok v <;>
            simp [init, truthyOpt, Cmd.truthy, hv, hc]
    | list ys =>
      cases sc with
      | none =>
        cases ys <;> simp [init, truthyOpt, Cmd.truthy]
      | some v =>
        by_cases hv : v = ""
        · cases ys <;> simp [init, truthyOpt, Cmd.truthy, hv]
        · cases hc : containsTok v <;>
            simp [init, truthyOpt, Cmd.truthy, hv, hc]
  · cases hc : containsTok sc2 <;>
      simp [init, truthyOpt, Cmd.truthy, h2, hc, Except.map]

/-- C4 witness: the amended statement instantiated at the both-set spec
with cmd a one-element list and shell_cmd a non-empty string. -/
theorem c4_validation_witness :
    ("go" ≠ "") ∧
    ((init (Cmd.list ["ls"]) (some "echo hi") Option.none "T" =
        Except.error (PyErr.valueError "shell_cmd or cmd is required") ↔
      (truthyOpt (some "echo hi") = false ∧ (Cmd.list ["ls"]).truthy = false)) ∧
    (init (Cmd.list ["a"]) (some "go") Option.none "T").map
        (fun l => l.finalShellCmd.isSome) = Except.ok true) :=
  ⟨by decide,
   c4_validation (Cmd.list ["ls"]) (some "echo hi") Option.none "T" ["a"] "go"
     (by decide)⟩

/-- Concrete base environment whose PATH is the string a. -/
def basePathA : EnvMap := fun k => if k = "PATH" then some "a" else Option.none

/-- Concrete overlay whose PATH is the string b. -/
def overlayPathB : EnvMap := fun k => if k = "PATH" then some "b" else Option.none

/-- C5 counterexample: the claim states that an overlay PATH entry takes
precedence over the pathOverride.  With base PATH a, overlay PATH b and
pathOverride c, the composed child environment carries PATH c, not the
overlay value b: the code merges the overlay first and then lets the
override replace PATH. -/
theorem c5_counterexample :
    (composeProcEnv basePathA overlayPathB "c").1 "PATH" = some "c" ∧
    ¬ ((composeProcEnv basePathA overlayPathB "c").1 "PATH" = some "b") := by
  exact ⟨rfl, by decide⟩

/-- C5 amended: the overlay is merged into the base environment first,
the overlay winning on every key collision; a truthy pathOverride then
replaces the PATH entry of the merged map, so the override takes
precedence over an overlay PATH entry; every value, the override
included, is expanded against the merged pre-override map. -/
theorem c5_merge_order (base overlay : EnvMap) (p k : String)
    (hp : p ≠ "") (hk : k ≠ "PATH") :
    (composeProcEnv base overlay p).1 "PATH" =
      some (expandvars (EnvMap.update base overlay) p) ∧
    (composeProcEnv base overlay p).1 k =
      (EnvMap.update base overlay k).map (expandvars (EnvMap.update base overlay)) := by
  constructor
  · simp [composeProcEnv, updated_environ, EnvMap.set, hp]
  · simp [composeProcEnv, updated_environ, EnvMap.set, hp, hk]

/-- C5 witness: the amended merge-order statement at the concrete base,
overlay, override string and non-PATH key. -/
theorem c5_merge_order_witness :
    ("/opt/bin" ≠ "") ∧ ("FOO" ≠ "PATH") ∧
    ((composeProcEnv basePathA overlayPathB "/opt/bin").1 "PATH" =
      some (expandvars (EnvMap.update basePathA overlayPathB) "/opt/bin") ∧
    (composeProcEnv basePathA overlayPathB "/opt/bin").1 "FOO" =
      (EnvMap.update basePathA overlayPathB "FOO").map
        (expandvars (EnvMap.update basePathA overlayPathB))) :=
  ⟨by decide, by decide,
   c5_merge_order basePathA overlayPathB "/opt/bin" "FOO" (by decide) (by decide)⟩

/-- C6 counterexample: the claim states that when the token is absent no
results tailer runs regardless of a supplied resultsFilePath.  With a
token-free shell command and a supplied path, the constructor starts the
tailer thread: the thread start is guarded by the truthiness of
results_file_path, not by the presence of the token. -/
theorem c6_counterexample :
    containsTok "echo hi" = false ∧
    (init Cmd.none (some "echo hi") (some "/tmp/r.txt") "T").map
        (fun l => l.tailerStarted) = Except.ok true := by
  exact ⟨rfl, rfl⟩

/-- C6 amended: when the token is absent from a truthy shell command the
command text is returned unchanged and no temporary file is created, but
the results tailer runs exactly when a truthy resultsFilePath was
supplied. -/
theorem c6_token_absent (sc : String) (rfp : Option String) (t : String)
    (hs : sc ≠ "") (htok : containsTok sc = false) :
    init Cmd.none (some sc) rfp t =
      Except.ok { st := { killed := false, results_file_path := rfp,
                          delete_flag := false, hasListener := true },
                  finalShellCmd := some sc, finalCmd := Cmd.none,
                  createdTemp := false, tailerStarted := truthyOpt rfp } := by
  simp [init, truthyOpt, Cmd.truthy, hs, htok]

/-- C6 witness: the amended statement at the concrete token-free shell
command with a supplied results path. -/
theorem c6_token_absent_witness :
    ("echo hi" ≠ "") ∧ containsTok "echo hi" = false ∧
    init Cmd.none (some "echo hi") (some "/tmp/r.txt") "T" =
      Except.ok { st := { killed := false, results_file_path := some "/tmp/r.txt",
                          delete_flag := false, hasListener := true },
                  finalShellCmd := some "echo hi", finalCmd := Cmd.none,
                  createdTemp := false,
                  tailerStarted := truthyOpt (some "/tmp/r.txt") } :=
  ⟨by decide, by decide,
   c6_token_absent "echo hi" (some "/tmp/r.txt") "T" (by decide) (by decide)⟩

/-- C8: bounded best-effort cleanup.  For every instance state and every
failure pattern of os.remove, delete_results_file returns normally with
results_file_path reset to None and the ownership flag cleared; it sleeps
at most 51 times a tenth of a second (total wait at most 5.1 seconds) and
makes at most 51 removal attempts; and it logs the non-fatal warning
exactly when it owned the file and all 51 attempts failed.  The warning
is an event of the trace, never an exception: the function is total. -/
theorem c8_bounded_cleanup (s : ProcState) (rf : Nat → Bool) :
    (delete_results_file s rf).1.results_file_path = Option.none ∧
    (delete_results_file s rf).1.delete_flag = false ∧
    (sleepOps (delete_results_file s rf).2).length ≤ 51 ∧
    (removeOps (delete_results_file s rf).2).length ≤ 51 ∧
    warnOps (delete_results_file s rf).2 =
      (if s.delete_flag && (List.range 51).all (fun i => rf i) then [Event.warn]
       else []) := by
  have hs51 := aux_deleteLoop_sleep_len rf s.results_file_path 51 0
  have hr51 := aux_deleteLoop_remove_len rf s.results_file_path 51 0
  have hw := aux_deleteLoop_filter_nil rf s.results_file_path
    (fun e => match e with | Event.warn => true | _ => false)
    (fun _ => rfl) (fun _ => rfl) 51 0
  have hok := aux_deleteLoop_ok rf s.results_file_path 51 0
  have hzero : (fun i => rf (0 + i)) = fun i => rf i := by
    funext i
    simp
  rw [hzero] at hok
  cases hd : s.delete_flag with
  | false => simp [delete_results_file, hd, sleepOps, removeOps, warnOps]
  | true =>
    refine ⟨by simp [delete_results_file], by simp [delete_results_file], ?_, ?_, ?_⟩
    · simp only [delete_results_file, hd, if_true, sleepOps, List.filter_append,
        List.length_append] at hs51 ⊢
      have h2 : (List.filter
          (fun e => match e with | Event.sleep centis => true | x => false)
          (if (deleteLoop rf s.results_file_path 0 51).1 then []
           else [Event.warn])).length = 0 := by
        split <;> simp
      omega
    · simp only [delete_results_file, hd, if_true, removeOps, List.filter_append,
        List.length_append] at hr51 ⊢
      have h2 : (List.filter
          (fun e => match e with | Event.removeAttempt path => true | x => false)
          (if (deleteLoop rf s.results_file_path 0 51).1 then []
           else [Event.warn])).length = 0 := by
        split <;> simp
      omega
    · simp only [delete_results_file, hd, if_true, warnOps, List.filter_append]
      rw [hw]
      cases hall : (List.range 51).all (fun i => rf i) with
      | true =>
        rw [hall] at hok
        simp [hok]
      | false =>
        rw [hall] at hok
        simp [hok]

/-- C9: kill is idempotent.  After one kill the instance state is killed
with the results channel reference and ownership flag cleared, and a
second kill is a complete no-op: it returns the same state and performs
no observable action at all, in particular no second deletion attempt, no
error and no listener call; moreover no kill ever forwards data or
delivers a completion to the listener. -/
theorem c9_kill_idempotent (s : ProcState) (f g : Nat → Bool) :
    kill (kill s f).1 g = ((kill s f).1, []) ∧
    dataOps (kill s f).2 = [] ∧
    finishedOps (kill s f).2 = [] := by
  have hdata := aux_deleteLoop_filter_nil f s.results_file_path
    (fun e => match e with | Event.onData chunk => true | _ => false)
    (fun _ => rfl) (fun _ => rfl) 51 0
  have hfin := aux_deleteLoop_filter_nil f s.results_file_path
    (fun e => match e with | Event.onFinished => true | _ => false)
    (fun _ => rfl) (fun _ => rfl) 51 0
  refine ⟨?_, ?_, ?_⟩
  · cases hk : s.killed <;>
      simp [kill, base_kill, delete_results_file, hk]
  · cases hk : s.killed <;> cases hd : s.delete_flag <;>
      simp [kill, base_kill, delete_results_file, hk, hd, dataOps,
        List.filter_append, hdata]
  · cases hk : s.killed <;> cases hd : s.delete_flag <;>
      simp [kill, base_kill, delete_results_file, hk, hd, finishedOps,
        List.filter_append, hfin]

/-- C7: cleanup ownership.  With a token-bearing truthy shell command:
a launch given a caller-supplied truthy resultsFilePath builds its
channel with the ownership flag clear, and neither the tailer run (for
any liveness, reads and removal-failure pattern) nor kill ever attempts
to remove the file; a launch given no resultsFilePath creates the
temporary file with the ownership flag set, and when the process has
exited normally (probe not alive, kill flag clear) the tailer run ends by
deleting exactly that file, without warning, and clears the channel
reference. -/
theorem c7_cleanup_ownership
    (sc p t : String) (reads reads2 : List (List Nat)) (alive2 : Bool)
    (rf rf2 rf0 : Nat → Bool)
    (hs : sc ≠ "") (htok : containsTok sc = true) (hp : p ≠ "") (ht : t ≠ "")
    (hrf0 : rf0 0 = false) :
    init Cmd.none (some sc) (some p) t =
      Except.ok { st := { killed := false, results_file_path := some p,
                          delete_flag := false, hasListener := true },
                  finalShellCmd := some (pyReplace sc p), finalCmd := Cmd.none,
                  createdTemp := false, tailerStarted := true } ∧
    removeOpsOf (read_results_from_file
        { killed := false, results_file_path := some p, delete_flag := false,
          hasListener := true } alive2 reads2 rf2) = [] ∧
    removeOps (kill
        { killed := false, results_file_path := some p, delete_flag := false,
          hasListener := true } rf).2 = [] ∧
    init Cmd.none (some sc) Option.none t =
      Except.ok { st := { killed := false, results_file_path := some t,
                          delete_flag := true, hasListener := true },
                  finalShellCmd := some (pyReplace sc t), finalCmd := Cmd.none,
                  createdTemp := true, tailerStarted := true } ∧
    (read_results_from_file
        { killed := false, results_file_path := some t, delete_flag := true,
          hasListener := true } false reads rf0).map (fun x => x.1) =
      some { killed := false, results_file_path := Option.none,
             delete_flag := false, hasListener := true } ∧
    (read_results_from_file
        { killed := false, results_file_path := some t, delete_flag := true,
          hasListener := true } false reads rf0).map (fun x => removeOps x.2) =
      some [Event.removeAttempt (some t)] ∧
    (read_results_from_file
        { killed := false, results_file_path := some t, delete_flag := true,
          hasListener := true } false reads rf0).map (fun x => warnOps x.2) =
      some [] := by
  have hdl : deleteLoop rf0 (some t) 0 51 = (true, [Event.removeAttempt (some t)]) := by
    rw [show (51 : Nat) = 50 + 1 from rfl]
    simp [deleteLoop, hrf0]
  have hdel : delete_results_file
      { killed := false, results_file_path := some t, delete_flag := true,
        hasListener := true } rf0 =
      ({ killed := false, results_file_path := Option.none, delete_flag := false,
         hasListener := true }, [Event.removeAttempt (some t)]) := by
    simp [delete_results_file, hdl]
  obtain ⟨evs, hevs⟩ :=
    Option.isSome_iff_exists.mp (aux_tailLoop_some false true reads)
  have hremove := aux_tailLoop_filter_nil false false true
    (fun e => match e with | Event.removeAttempt path => true | _ => false)
    (fun _ => rfl) (fun _ => rfl) reads evs hevs
  have hwarn := aux_tailLoop_filter_nil false false true
    (fun e => match e with | Event.warn => true | _ => false)
    (fun _ => rfl) (fun _ => rfl) reads evs hevs
  refine ⟨?_, ?_, ?_, ?_, ?_, ?_, ?_⟩
  · simp [init, truthyOpt, Cmd.truthy, hs, htok, hp]
  · simp only [read_results_from_file]
    cases hres : tailLoop false alive2 true reads2 with
    | none => simp [removeOpsOf]
    | some evs2 =>
      have h2 := aux_tailLoop_filter_nil false alive2 true
        (fun e => match e with | Event.removeAttempt path => true | _ => false)
        (fun _ => rfl) (fun _ => rfl) reads2 evs2 hres
      simp [removeOpsOf, delete_results_file, removeOps, h2]
  · simp [kill, base_kill, delete_results_file, removeOps]
  · simp [init, truthyOpt, Cmd.truthy, hs, htok, ht, create_results_file]
  · simp [read_results_from_file, hevs, hdel]
  · simp [read_results_from_file, hevs, hdel, removeOps, List.filter_append, hremove]
  · simp [read_results_from_file, hevs, hdel, warnOps, List.filter_append, hwarn]

/-- C7 witness: the ownership statement at a concrete token-bearing shell
command, a concrete supplied path, a concrete temporary name, one-chunk
read lists, and a removal oracle that succeeds at once. -/
theorem c7_cleanup_ownership_witness :
    (("run <result_file>" ≠ "") ∧ containsTok "run <result_file>" = true ∧
     ("/tmp/r.txt" ≠ "") ∧ ("/tmp/q.txt" ≠ "") ∧
     (fun _ : Nat => false) 0 = false) ∧
    (init Cmd.none (some "run <result_file>") (some "/tmp/r.txt") "/tmp/q.txt" =
      Except.ok { st := { killed := false, results_file_path := some "/tmp/r.txt",
                          delete_flag := false, hasListener := true },
                  finalShellCmd := some (pyReplace "run <result_file>" "/tmp/r.txt"),
                  finalCmd := Cmd.none,
                  createdTemp := false, tailerStarted := true } ∧
    removeOpsOf (read_results_from_file
        { killed := false, results_file_path := some "/tmp/r.txt",
          delete_flag := false, hasListener := true } true [[7]]
        (fun _ => true)) = [] ∧
    removeOps (kill
        { killed := false, results_file_path := some "/tmp/r.txt",
          delete_flag := false, hasListener := true } (fun _ => true)).2 = [] ∧
    init Cmd.none (some "run <result_file>") Option.none "/tmp/q.txt" =
      Except.ok { st := { killed := false, results_file_path := some "/tmp/q.txt",
                          delete_flag := true, hasListener := true },
                  finalShellCmd := some (pyReplace "run <result_file>" "/tmp/q.txt"),
                  finalCmd := Cmd.none,
                  createdTemp := true, tailerStarted := true } ∧
    (read_results_from_file
        { killed := false, results_file_path := some "/tmp/q.txt",
          delete_flag := true, hasListener := true } false [[42]]
        (fun _ => false)).map (fun x => x.1) =
      some { killed := false, results_file_path := Option.none,
             delete_flag := false, hasListener := true } ∧
    (read_results_from_file
        { killed := false, results_file_path := some "/tmp/q.txt",
          delete_flag := true, hasListener := true } false [[42]]
        (fun _ => false)).map (fun x => removeOps x.2) =
      some [Event.removeAttempt (some "/tmp/q.txt")] ∧
    (read_results_from_file
        { killed := false, results_file_path := some "/tmp/q.txt",
          delete_flag := true, hasListener := true } false [[42]]
        (fun _ => false)).map (fun x => warnOps x.2) =
      some []) :=
  ⟨⟨by decide, by decide, by decide, by decide, rfl⟩,
   c7_cleanup_ownership "run <result_file>" "/tmp/r.txt" "/tmp/q.txt"
     [[42]] [[7]] true (fun _ => true) (fun _ => true) (fun _ => false)
     (by decide) (by decide) (by decide) (by decide) rfl⟩
